import Mathlib

/-!
Verification of the reconciliation core of the vast-ansible collection:
the schema-driven diff engine (plugins/module_utils/vast/diff.py) and the
async task waiter (plugins/module_utils/vast/waiter.py), together with the
task-id extraction in plugins/module_utils/vast/resource.py.

Python values are modelled by the inductive `Value` (JSON-like data: None,
bool, int, str, list, dict).  Equality of `Value` is structural, which
matches Python `==` on these shapes except for Python's numeric coercion
between `bool` and `int` (`False == 0`); no resource field in this
development mixes booleans and integers, and no theorem below depends on
that corner.  Python dictionaries are modelled as association lists with
distinct keys (`Obj`); lookup takes the first matching entry, which agrees
with a Python dict whenever the keys are distinct.
-/

inductive Value where
  | null
  | bool (b : Bool)
  | int (n : Int)
  | str (s : String)
  | list (items : List Value)
  | dict (fields : List (String × Value))

mutual

def Value.beq : Value → Value → Bool
  | Value.null, Value.null => true
  | Value.bool a, Value.bool b => a == b
  | Value.int a, Value.int b => a == b
  | Value.str a, Value.str b => a == b
  | Value.list xs, Value.list ys => Value.beqList xs ys
  | Value.dict xs, Value.dict ys => Value.beqDict xs ys
  | _, _ => false

def Value.beqList : List Value → List Value → Bool
  | [], [] => true
  | x :: xs, y :: ys => Value.beq x y && Value.beqList xs ys
  | _, _ => false

def Value.beqDict : List (String × Value) → List (String × Value) → Bool
  | [], [] => true
  | (k, v) :: xs, (k', v') :: ys => k == k' && Value.beq v v' && Value.beqDict xs ys
  | _, _ => false

end

mutual

theorem Value.beq_iff : (a b : Value) → (Value.beq a b = true ↔ a = b)
  | Value.null, b => by cases b <;> simp [Value.beq]
  | Value.bool x, b => by cases b <;> simp [Value.beq]
  | Value.int x, b => by cases b <;> simp [Value.beq]
  | Value.str x, b => by cases b <;> simp [Value.beq]
  | Value.list xs, b => by
    cases b <;> simp [Value.beq]
    exact Value.beqList_iff xs _
  | Value.dict xs, b => by
    cases b <;> simp [Value.beq]
    exact Value.beqDict_iff xs _

theorem Value.beqList_iff : (xs ys : List Value) → (Value.beqList xs ys = true ↔ xs = ys)
  | [], [] => by simp [Value.beqList]
  | [], _ :: _ => by simp [Value.beqList]
  | _ :: _, [] => by simp [Value.beqList]
  | x :: xs, y :: ys => by
    simp [Value.beqList, Value.beq_iff x y, Value.beqList_iff xs ys]

theorem Value.beqDict_iff : (xs ys : List (String × Value)) → (Value.beqDict xs ys = true ↔ xs = ys)
  | [], [] => by simp [Value.beqDict]
  | [], _ :: _ => by simp [Value.beqDict]
  | _ :: _, [] => by simp [Value.beqDict]
  | (k, v) :: xs, (k', v') :: ys => by
    simp [Value.beqDict, Value.beq_iff v v', Value.beqDict_iff xs ys, and_assoc]

end

instance : DecidableEq Value := fun a b => decidable_of_iff _ (Value.beq_iff a b)

/-- A Python dict with string keys, as an association list. -/
abbrev Obj := List (String × Value)

/-- Python `d.get(k)` / `d[k]`: the first entry with key `k`. -/
def Obj.get (o : Obj) (k : String) : Option Value :=
  match o with
  | [] => none
  | (k', v) :: rest => if k' = k then some v else Obj.get rest k

/-- Python truthiness (`if x:`) of a JSON-like value. -/
def Value.truthy : Value → Bool
  | Value.null => false
  | Value.bool b => b
  | Value.int n => decide (n ≠ 0)
  | Value.str s => decide (s ≠ "")
  | Value.list items => !items.isEmpty
  | Value.dict fields => !fields.isEmpty

/-! ### diff.py: normalize_value -/

/-- A value Python can put in a `set` (hashable): everything but lists and dicts. -/
def hashable : Value → Bool
  | Value.list _ => false
  | Value.dict _ => false
  | _ => true

def allHashable (items : List Value) : Bool := items.all hashable

/-- Values that sort like Python numbers (`bool` is an `int` in Python). -/
def isIntKey : Value → Bool
  | Value.bool _ => true
  | Value.int _ => true
  | _ => false

def isStrKey : Value → Bool
  | Value.str _ => true
  | _ => false

/-- Python `sorted` succeeds on a list of hashable values iff the elements are
mutually comparable: all numeric or all strings. -/
def allSortable (items : List Value) : Bool :=
  items.all isIntKey || items.all isStrKey

/-- Sort key of a scalar: numeric values on the left, strings on the right.
Unsortable values get a junk key; `sortVals` is only ever applied (inside
`normalize_value`) to lists where `allSortable` holds, so the junk key is
never compared there. -/
def sortKey : Value → Lex (Int ⊕ String)
  | Value.bool b => toLex (Sum.inl (if b then 1 else 0))
  | Value.int n => toLex (Sum.inl n)
  | Value.str s => toLex (Sum.inr s)
  | _ => toLex (Sum.inl 0)

/-- The total preorder Python's `sorted` uses on mutually comparable scalars. -/
def vle (a b : Value) : Prop := sortKey a ≤ sortKey b

instance : DecidableRel vle := fun a b => by
  unfold vle; infer_instance

instance : IsTotal Value vle :=
  ⟨fun a b => le_total (sortKey a) (sortKey b)⟩

instance : IsTrans Value vle :=
  ⟨fun _ _ _ h1 h2 => le_trans h1 h2⟩

/-- Python `sorted` on scalars (stable). -/
def sortVals (l : List Value) : List Value := List.insertionSort vle l

/-- The `seen` loop of `normalize_value`'s dedupe fallback:
`for item in value: if item not in seen: seen.append(item)`. -/
def dedupeLoop (seen : List Value) : List Value → List Value
  | [] => seen
  | item :: rest =>
    if item ∈ seen then dedupeLoop seen rest
    else dedupeLoop (seen ++ [item]) rest

/-- First-occurrence dedupe, as in the Python fallback loop. -/
def dedupe (l : List Value) : List Value := dedupeLoop [] l

/-- diff.py `normalize_value`: for set-like lists, `sorted(set(value))` when the
elements are hashable and mutually comparable, else the order-preserving
dedupe fallback (a `TypeError` from `set` or `sorted` selects the fallback);
everything else passes through.  (`sorted(set(-))` is modelled as
sort-after-first-occurrence-dedupe, which returns the same list.) -/
def normalize_value (value : Value) (set_like : Bool) : Value :=
  match value with
  | Value.null => Value.null
  | Value.list items =>
    if set_like then
      if allHashable items && allSortable items then Value.list (sortVals (dedupe items))
      else Value.list (dedupe items)
    else Value.list items
  | v => v

/-! ### diff.py: normalize_resource -/

/-- The schema-overrides entry for one resource type: the four field
classification sets consulted by diff.py. -/
structure Overrides where
  read_only_fields : List String
  ephemeral_fields : List String
  immutable_fields : List String
  set_like_lists : List String

/-- The three `continue` guards of the `normalize_resource` loop. -/
def keepField (overrides : Overrides) (exclude_immutable include_ephemeral : Bool)
    (key : String) : Bool :=
  !(decide (key ∈ overrides.read_only_fields)) &&
  (include_ephemeral || !(decide (key ∈ overrides.ephemeral_fields))) &&
  !(decide (key ∈ (if exclude_immutable then overrides.immutable_fields else [])))

/-- diff.py `normalize_resource`. -/
def normalize_resource (resource : Obj) (overrides : Overrides)
    (exclude_immutable include_ephemeral : Bool) : Obj :=
  if resource.isEmpty then []
  else
    (resource.filter fun kv => keepField overrides exclude_immutable include_ephemeral kv.1).map
      fun kv => (kv.1, normalize_value kv.2 (decide (kv.1 ∈ overrides.set_like_lists)))

/-! ### diff.py: values_equal and compute_patch -/

/-- Python `set(xs) == set(ys)`: same elements, ignoring order and multiplicity. -/
def setEq (xs ys : List Value) : Bool :=
  decide (∀ x ∈ xs, x ∈ ys) && decide (∀ y ∈ ys, y ∈ xs)

/-- diff.py `values_equal`. -/
def values_equal (current_val desired_val : Value) (set_like : Bool) : Bool :=
  if current_val = Value.null ∧ desired_val = Value.null then true
  else if desired_val = Value.bool false ∧ current_val = Value.null then true
  else
    match set_like, current_val, desired_val with
    | true, Value.list xs, Value.list ys =>
      if allHashable xs && allHashable ys then setEq xs ys
      else decide (Value.list xs = Value.list ys)
    | _, c, d => decide (c = d)

/-- diff.py `compute_patch`: keep the entries of `desired` whose value is
non-null and differs from `current`'s (missing current value reads as null,
as Python `current.get(key)` returns `None`). -/
def compute_patch (current desired : Obj) (overrides : Overrides) : Obj :=
  desired.filter fun kv =>
    !(decide (kv.2 = Value.null)) &&
    !(values_equal ((Obj.get current kv.1).getD Value.null) kv.2
        (decide (kv.1 ∈ overrides.set_like_lists)))

/-- diff.py `has_changes`. -/
def has_changes (current desired : Obj) (overrides : Overrides) : Bool :=
  !(compute_patch current desired overrides).isEmpty

/-- Python `current.update(patch)`: entries of `patch` win, other entries of
`current` survive.  (Key order differs from CPython's in-place update, but
lookup — all the diff engine consults — agrees.) -/
def Obj.update (o p : Obj) : Obj :=
  (o.filter fun kv => !(decide (kv.1 ∈ p.map Prod.fst))) ++ p

/-! ### waiter.py: TaskWaiter states and field extraction -/

/-- Embedding of `TaskWaiter.SUCCESS_STATES`. -/
def SUCCESS_STATES : List Value := [Value.str "COMPLETED", Value.str "SUCCESS"]

/-- Embedding of `TaskWaiter.TERMINAL_STATES`. -/
def TERMINAL_STATES : List Value :=
  [Value.str "COMPLETED", Value.str "SUCCESS", Value.str "FAILED",
   Value.str "ERROR", Value.str "CANCELLED"]

/-- State lookup `task.get("state", task.get("status", "UNKNOWN"))`: a key present with a
null value yields null, the default is used only when the key is absent. -/
def taskState (task : Obj) : Value :=
  match Obj.get task "state" with
  | some v => v
  | none =>
    match Obj.get task "status" with
    | some v => v
    | none => Value.str "UNKNOWN"

/-- Error lookup `task.get("error", task.get("message", "Unknown error"))`. -/
def taskError (task : Obj) : Value :=
  match Obj.get task "error" with
  | some v => v
  | none =>
    match Obj.get task "message" with
    | some v => v
    | none => Value.str "Unknown error"

/-- The two failure shapes of `TaskWaiter._get_task`: the `AttributeError`
handler ("Neither vtasks nor async_tasks endpoint available") and the generic
`except Exception` handler ("Failed to get task {id}: {detail}"), which also
wraps the not-found `VastAPIError` raised inside the `try` block. -/
inductive GetTaskError where
  | noEndpoints
  | failed (detail : String)
  deriving DecidableEq

/-- Behaviour of one task-status endpoint attribute on the client: the
attribute's `.get(id=...)` either returns a value or raises an exception
other than `AttributeError`. -/
inductive Endpoint where
  | returns (v : Value)
  | throws (msg : String)

/-- The remote client as `TaskWaiter._get_task` sees it: each of the two
task-status endpoint attributes is either present with some behaviour or
missing (`none`), in which case accessing it raises `AttributeError`. -/
structure Client where
  vtasks : Option Endpoint
  async_tasks : Option Endpoint

/-- Unwrapping `tasks[0] if isinstance(tasks, list) else tasks`; only applied to truthy
values, so the empty-list branch is unreachable. -/
def firstIfList : Value → Value
  | Value.list (x :: _) => x
  | Value.list [] => Value.null
  | v => v

/-- Embedding of `TaskWaiter._get_task`.  Note the `AttributeError` from a missing `vtasks`
attribute is raised by the first line of the `try` block, so the
`async_tasks` fallback is reached only when `vtasks` exists and returns a
falsy result. -/
def get_task (c : Client) (task_id : Nat) : Except GetTaskError Value :=
  match c.vtasks with
  | none => Except.error GetTaskError.noEndpoints
  | some (Endpoint.throws msg) => Except.error (GetTaskError.failed msg)
  | some (Endpoint.returns tasks) =>
    if tasks.truthy then Except.ok (firstIfList tasks)
    else
      match c.async_tasks with
      | none => Except.error GetTaskError.noEndpoints
      | some (Endpoint.throws msg) => Except.error (GetTaskError.failed msg)
      | some (Endpoint.returns tasks2) =>
        if tasks2.truthy then Except.ok (firstIfList tasks2)
        else Except.error (GetTaskError.failed ("Task " ++ toString task_id ++ " not found"))

/-! ### waiter.py: TaskWaiter.wait_for_task

The polling loop is modelled against an abstract status query
`geto : Nat → Except GetTaskError Obj` giving the result of the n-th
`_get_task` call (`wait_for_task` itself never handles the query's
exceptions, so they surface in the result).  Wall-clock time advances only
in `time.sleep(poll_interval)`, so the n-th poll happens at elapsed time
`n * poll_interval`.  The fuel argument only rules out the genuinely
diverging run (`poll_interval = 0` with a never-terminal task);
`timeout + 1` units suffice for every positive poll interval. -/

inductive WaitResult where
  | success (polls : Nat) (task : Obj)
  | taskFailed (polls : Nat) (state : Value) (error : Value)
  | timedOut (polls : Nat) (lastState : Option Value)
  | getTaskError (polls : Nat) (e : GetTaskError)
  | outOfFuel
  deriving DecidableEq

def waitLoop (geto : Nat → Except GetTaskError Obj) (timeout poll : Nat) :
    Nat → Nat → Option Value → WaitResult
  | 0, _, _ => WaitResult.outOfFuel
  | fuel + 1, n, last =>
    if timeout ≤ n * poll then WaitResult.timedOut n last
    else
      match geto n with
      | Except.error e => WaitResult.getTaskError (n + 1) e
      | Except.ok task =>
        let state := taskState task
        if state ∈ SUCCESS_STATES then WaitResult.success (n + 1) task
        else if state ∈ TERMINAL_STATES then
          WaitResult.taskFailed (n + 1) state (taskError task)
        else waitLoop geto timeout poll fuel (n + 1) (some state)

/-- Embedding of `TaskWaiter.wait_for_task` with the given timeout and poll interval. -/
def wait_for_task (geto : Nat → Except GetTaskError Obj) (timeout poll : Nat) : WaitResult :=
  waitLoop geto timeout poll (timeout + 1) 0 none

/-! ### waiter.py: extract_task_id, and resource.py: BaseResource._extract_task_id

Both functions return a Python value or `None`; since `None` is itself the
null value, the result is a single `Value` (null meaning "no task id, the
operation was synchronous").  The waiter version evaluates
`"id" in async_task` on whatever `response["async_task"]` holds; on a
non-dict value that is a `TypeError` (modelled as the error case; the
development only ever evaluates it on responses whose `async_task` field, if
present, is a mapping). -/

def extract_task_id (response : Obj) : Except String Value :=
  if (Obj.get response "task_id").isSome then
    Except.ok ((Obj.get response "task_id").getD Value.null)
  else
    match (Obj.get response "async_task").getD (Value.dict []) with
    | Value.dict kvs =>
      if (Obj.get kvs "id").isSome then Except.ok ((Obj.get kvs "id").getD Value.null)
      else if (Obj.get kvs "task_id").isSome then
        Except.ok ((Obj.get kvs "task_id").getD Value.null)
      else
        if (Obj.get response "id").isSome ∧ Obj.get response "type" = some (Value.str "async_task")
        then Except.ok ((Obj.get response "id").getD Value.null)
        else Except.ok Value.null
    | _ => Except.error "TypeError"

/-- Python `a or b`. -/
def pyOr (a b : Value) : Value := if a.truthy then a else b

/-- Embedding of `BaseResource._extract_task_id` (resource.py), on dict responses (the
`None` and non-dict guards live in the caller's domain).  `async_task` is
taken as `response.get("async_task") or {}`, a falsy value becoming the
empty dict; `.get` on a remaining truthy non-dict raises `AttributeError`
(the error case).  A falsy nested id (`async_task.get("id") or
async_task.get("task_id")` failing the `if task_id:` test) falls through to
the root-task check. -/
def BaseResource_extract_task_id (response : Obj) : Except String Value :=
  if (Obj.get response "task_id").isSome then
    Except.ok ((Obj.get response "task_id").getD Value.null)
  else
    if (Obj.get response "async_task").isSome then
      match (if ((Obj.get response "async_task").getD Value.null).truthy
             then (Obj.get response "async_task").getD Value.null
             else Value.dict []) with
      | Value.dict kvs =>
        let tid := pyOr ((Obj.get kvs "id").getD Value.null) ((Obj.get kvs "task_id").getD Value.null)
        if tid.truthy then Except.ok tid
        else
          if (Obj.get response "id").isSome ∧
              Obj.get response "type" = some (Value.str "async_task")
          then Except.ok ((Obj.get response "id").getD Value.null)
          else Except.ok Value.null
      | _ => Except.error "AttributeError"
    else
      if (Obj.get response "id").isSome ∧ Obj.get response "type" = some (Value.str "async_task")
      then Except.ok ((Obj.get response "id").getD Value.null)
      else Except.ok Value.null

/-! ### waiter.py: wait_for_resource_state

The whole body of each iteration sits in a `try` whose handlers re-raise
`VastAPIError` and swallow every other exception before sleeping.  A poll
therefore either yields a value, raises a `VastAPIError` (re-raised), or
raises something else (swallowed, loop continues). -/

inductive ResourcePoll where
  | value (v : Value)
  | raisesVast (msg : String)
  | raisesOther

inductive ResWaitResult where
  | reached (polls : Nat) (resource : Value)
  | errorState (polls : Nat) (state : Value) (error : Value)
  | vastError (polls : Nat) (msg : String)
  | timedOut (polls : Nat)
  | outOfFuel
  deriving DecidableEq

/-- The fixed error-label tuple `("ERROR", "FAILED", "DELETED")`. -/
def ERROR_LABELS : List Value := [Value.str "ERROR", Value.str "FAILED", Value.str "DELETED"]

/-- Unwrapping `if isinstance(resource, list): resource = resource[0] if resource else ...` (else branch: the empty dict). -/
def unwrapList : Value → Value
  | Value.list [] => Value.dict []
  | Value.list (x :: _) => x
  | v => v

/-- State lookup `resource.get("state", resource.get("status"))`, null when both absent. -/
def resState (o : Obj) : Value :=
  match Obj.get o "state" with
  | some v => v
  | none => (Obj.get o "status").getD Value.null

/-- Error lookup `resource.get("error", resource.get("message", "Unknown error"))`. -/
def resError (o : Obj) : Value :=
  match Obj.get o "error" with
  | some v => v
  | none => (Obj.get o "message").getD (Value.str "Unknown error")

def resWaitLoop (geto : Nat → ResourcePoll) (target : Value) (timeout poll : Nat) :
    Nat → Nat → ResWaitResult
  | 0, _ => ResWaitResult.outOfFuel
  | fuel + 1, n =>
    if timeout ≤ n * poll then ResWaitResult.timedOut n
    else
      match geto n with
      | ResourcePoll.raisesVast msg => ResWaitResult.vastError (n + 1) msg
      | ResourcePoll.raisesOther => resWaitLoop geto target timeout poll fuel (n + 1)
      | ResourcePoll.value v =>
        match unwrapList v with
        | Value.dict kvs =>
          if resState kvs = target then ResWaitResult.reached (n + 1) (Value.dict kvs)
          else if resState kvs ∈ ERROR_LABELS then
            ResWaitResult.errorState (n + 1) (resState kvs) (resError kvs)
          else resWaitLoop geto target timeout poll fuel (n + 1)
        | _ =>
          -- `.get` on a non-dict raises AttributeError, swallowed like any
          -- other non-VastAPIError exception
          resWaitLoop geto target timeout poll fuel (n + 1)

/-- waiter.py `wait_for_resource_state`. -/
def wait_for_resource_state (geto : Nat → ResourcePoll) (target : Value)
    (timeout poll : Nat) : ResWaitResult :=
  resWaitLoop geto target timeout poll (timeout + 1) 0

/-! ### Lemmas about dedupe and sorting -/

theorem mem_dedupeLoop (x : Value) : ∀ (l seen : List Value),
    x ∈ dedupeLoop seen l ↔ x ∈ seen ∨ x ∈ l := by
  intro l
  induction l with
  | nil => intro seen; simp [dedupeLoop]
  | cons item rest ih =>
    intro seen
    simp only [dedupeLoop]
    by_cases h : item ∈ seen
    · rw [if_pos h, ih]
      simp only [List.mem_cons]
      constructor
      · rintro (hs | hr)
        · exact Or.inl hs
        · exact Or.inr (Or.inr hr)
      · rintro (hs | he | hr)
        · exact Or.inl hs
        · exact Or.inl (he ▸ h)
        · exact Or.inr hr
    · rw [if_neg h, ih]
      simp only [List.mem_append, List.mem_singleton, List.mem_cons]
      tauto

theorem nodup_dedupeLoop : ∀ (l seen : List Value), seen.Nodup → (dedupeLoop seen l).Nodup := by
  intro l
  induction l with
  | nil => intro seen h; simpa [dedupeLoop] using h
  | cons item rest ih =>
    intro seen h
    simp only [dedupeLoop]
    by_cases hmem : item ∈ seen
    · rw [if_pos hmem]; exact ih seen h
    · rw [if_neg hmem]
      refine ih _ ?_
      simp [List.nodup_append, h, List.disjoint_singleton, hmem]

theorem dedupeLoop_eq_append : ∀ (l seen : List Value), l.Nodup → (∀ x ∈ l, x ∉ seen) →
    dedupeLoop seen l = seen ++ l := by
  intro l
  induction l with
  | nil => intro seen _ _; simp [dedupeLoop]
  | cons item rest ih =>
    intro seen hnd hdis
    simp only [dedupeLoop]
    rw [if_neg (hdis item (List.mem_cons_self item rest))]
    rw [List.nodup_cons] at hnd
    rw [ih (seen ++ [item]) hnd.2]
    · simp
    · intro x hx
      simp only [List.mem_append, List.mem_singleton]
      rintro (hs | rfl)
      · exact hdis x (List.mem_cons_of_mem item hx) hs
      · exact hnd.1 hx

theorem mem_dedupe (x : Value) (l : List Value) : x ∈ dedupe l ↔ x ∈ l := by
  simp [dedupe, mem_dedupeLoop]

theorem nodup_dedupe (l : List Value) : (dedupe l).Nodup :=
  nodup_dedupeLoop l [] List.nodup_nil

theorem dedupe_eq_self (l : List Value) (h : l.Nodup) : dedupe l = l := by
  simpa [dedupe] using dedupeLoop_eq_append l [] h (by simp)

theorem mem_sortVals (x : Value) (l : List Value) : x ∈ sortVals l ↔ x ∈ l :=
  List.mem_insertionSort vle

theorem nodup_sortVals (l : List Value) (h : l.Nodup) : (sortVals l).Nodup :=
  (List.perm_insertionSort vle l).nodup_iff.mpr h

theorem sortVals_of_sorted (l : List Value) (h : List.Sorted vle l) : sortVals l = l :=
  List.Sorted.insertionSort_eq h

theorem sorted_sortVals (l : List Value) : List.Sorted vle (sortVals l) :=
  List.sorted_insertionSort vle l

theorem all_eq_of_mem_iff {p : Value → Bool} {l₁ l₂ : List Value}
    (h : ∀ a, a ∈ l₁ ↔ a ∈ l₂) : l₁.all p = l₂.all p := by
  rcases hb : l₂.all p with _ | _
  · rw [List.all_eq_false] at hb ⊢
    obtain ⟨a, ha, hpa⟩ := hb
    exact ⟨a, (h a).mpr ha, hpa⟩
  · rw [List.all_eq_true] at hb ⊢
    intro a ha
    exact hb a ((h a).mp ha)

theorem allHashable_congr {l₁ l₂ : List Value} (h : ∀ a, a ∈ l₁ ↔ a ∈ l₂) :
    allHashable l₁ = allHashable l₂ :=
  all_eq_of_mem_iff h

theorem allSortable_congr {l₁ l₂ : List Value} (h : ∀ a, a ∈ l₁ ↔ a ∈ l₂) :
    allSortable l₁ = allSortable l₂ := by
  unfold allSortable
  rw [all_eq_of_mem_iff h, all_eq_of_mem_iff h]

theorem normalize_value_idem (v : Value) (sl : Bool) :
    normalize_value (normalize_value v sl) sl = normalize_value v sl := by
  cases v with
  | null => rfl
  | bool b => rfl
  | int n => rfl
  | str s => rfl
  | dict fs => rfl
  | list items =>
    cases sl with
    | false => rfl
    | true =>
      have hlist : ∀ xs : List Value, normalize_value (Value.list xs) true
          = if allHashable xs && allSortable xs then Value.list (sortVals (dedupe xs))
            else Value.list (dedupe xs) := fun xs => rfl
      by_cases h : allHashable items && allSortable items
      · have hmem : ∀ a, a ∈ sortVals (dedupe items) ↔ a ∈ items := by
          intro a; rw [mem_sortVals, mem_dedupe]
        have hcond : (allHashable (sortVals (dedupe items)) &&
            allSortable (sortVals (dedupe items)))
            = (allHashable items && allSortable items) := by
          rw [allHashable_congr hmem, allSortable_congr hmem]
        rw [hlist items, if_pos h, hlist _, if_pos (by rw [hcond]; exact h)]
        rw [dedupe_eq_self _ (nodup_sortVals _ (nodup_dedupe items)),
          sortVals_of_sorted _ (sorted_sortVals _)]
      · have hmem : ∀ a, a ∈ dedupe items ↔ a ∈ items := fun a => mem_dedupe a items
        have hcond : (allHashable (dedupe items) && allSortable (dedupe items))
            = (allHashable items && allSortable items) := by
          rw [allHashable_congr hmem, allSortable_congr hmem]
        rw [hlist items, if_neg h, hlist _, if_neg (by rw [hcond]; exact h)]
        rw [dedupe_eq_self _ (nodup_dedupe items)]

/-- C5: normalization is idempotent: renormalizing a normalized resource with
the same classification and the same exclude-immutable / include-ephemeral
flags returns it unchanged, including set-like list fields normalized by
sort-and-dedupe or by the order-preserving dedupe fallback. -/
theorem normalize_resource_idem (r : Obj) (c : Overrides)
    (exclude_immutable include_ephemeral : Bool) :
    normalize_resource (normalize_resource r c exclude_immutable include_ephemeral)
        c exclude_immutable include_ephemeral
      = normalize_resource r c exclude_immutable include_ephemeral := by
  by_cases hr : r.isEmpty
  · simp [normalize_resource, hr]
  · have hinner : normalize_resource r c exclude_immutable include_ephemeral
        = (r.filter fun kv => keepField c exclude_immutable include_ephemeral kv.1).map
            fun kv => (kv.1, normalize_value kv.2 (decide (kv.1 ∈ c.set_like_lists))) := by
      rw [normalize_resource, if_neg hr]
    rw [hinner]
    by_cases hnre : ((r.filter fun kv => keepField c exclude_immutable include_ephemeral kv.1).map
        fun kv => (kv.1, normalize_value kv.2 (decide (kv.1 ∈ c.set_like_lists)))).isEmpty
    · rw [normalize_resource, if_pos hnre]
      exact (List.isEmpty_iff.mp hnre).symm
    · rw [normalize_resource, if_neg hnre]
      rw [List.filter_eq_self.mpr]
      · refine (List.map_congr_left ?_).trans (List.map_id _)
        rintro ⟨k, w⟩ hkw
        obtain ⟨⟨k', v⟩, -, hkv⟩ := List.mem_map.mp hkw
        cases hkv
        simp only [id_eq, Prod.mk.injEq, true_and]
        exact normalize_value_idem v _
      · rintro ⟨k, w⟩ hkw
        obtain ⟨⟨k', v⟩, hmem, hkv⟩ := List.mem_map.mp hkw
        cases hkv
        exact (List.mem_filter.mp hmem).2

/-! ### Lemmas about association-list lookup -/

theorem Obj.get_eq_none_iff (o : Obj) (k : String) :
    Obj.get o k = none ↔ k ∉ o.map Prod.fst := by
  induction o with
  | nil => simp [Obj.get]
  | cons kv rest ih =>
    obtain ⟨k', v⟩ := kv
    simp only [Obj.get, List.map_cons, List.mem_cons]
    by_cases h : k' = k
    · subst h; simp
    · rw [if_neg h, ih]
      constructor
      · intro hk
        rintro (hc | hc)
        · exact h hc.symm
        · exact hk hc
      · intro hk hc
        exact hk (Or.inr hc)

theorem Obj.mem_of_get {o : Obj} {k : String} {v : Value} (h : Obj.get o k = some v) :
    (k, v) ∈ o := by
  induction o with
  | nil => simp [Obj.get] at h
  | cons kv rest ih =>
    obtain ⟨k', v'⟩ := kv
    simp only [Obj.get] at h
    by_cases hk : k' = k
    · rw [if_pos hk] at h
      cases h
      exact hk ▸ List.mem_cons_self _ _
    · rw [if_neg hk] at h
      exact List.mem_cons_of_mem _ (ih h)

theorem Obj.get_of_mem {o : Obj} {k : String} {v : Value}
    (hnd : (o.map Prod.fst).Nodup) (h : (k, v) ∈ o) : Obj.get o k = some v := by
  induction o with
  | nil => simp at h
  | cons kv rest ih =>
    obtain ⟨k', v'⟩ := kv
    simp only [List.map_cons, List.nodup_cons] at hnd
    rcases List.mem_cons.mp h with heq | hmem
    · cases heq
      simp [Obj.get]
    · have hk : k' ≠ k := by
        rintro rfl
        exact hnd.1 (List.mem_map.mpr ⟨(k', v), hmem, rfl⟩)
      simp only [Obj.get, if_neg hk]
      exact ih hnd.2 hmem

theorem Obj.get_filter (p : String × Value → Bool) (o : Obj) (k : String)
    (hnd : (o.map Prod.fst).Nodup) :
    Obj.get (o.filter p) k
      = (Obj.get o k).bind (fun v => if p (k, v) then some v else none) := by
  induction o with
  | nil => simp [Obj.get]
  | cons kv rest ih =>
    obtain ⟨k', v'⟩ := kv
    simp only [List.map_cons, List.nodup_cons] at hnd
    by_cases hp : p (k', v')
    · rw [List.filter_cons_of_pos hp]
      by_cases hk : k' = k
      · subst hk
        simp [Obj.get, hp]
      · simp only [Obj.get, if_neg hk]
        exact ih hnd.2
    · rw [List.filter_cons_of_neg hp]
      by_cases hk : k' = k
      · subst hk
        have h1 : Obj.get ((k', v') :: rest) k' = some v' := by simp [Obj.get]
        rw [h1]
        show Obj.get (List.filter p rest) k' = if p (k', v') = true then some v' else none
        rw [if_neg hp]
        rw [Obj.get_eq_none_iff]
        intro hmem
        obtain ⟨⟨k2, v2⟩, hmem2, hk2⟩ := List.mem_map.mp hmem
        exact hnd.1 (List.mem_map.mpr
          ⟨(k2, v2), (List.filter_sublist rest).subset hmem2, hk2⟩)
      · simp only [Obj.get, if_neg hk]
        exact ih hnd.2

theorem Obj.get_append (a b : Obj) (k : String) :
    Obj.get (a ++ b) k = if (Obj.get a k).isSome then Obj.get a k else Obj.get b k := by
  induction a with
  | nil => simp [Obj.get]
  | cons kv rest ih =>
    obtain ⟨k', v⟩ := kv
    by_cases hk : k' = k
    · simp [Obj.get, hk]
    · simpa [Obj.get, hk] using ih

theorem Obj.get_filter_not_mem (o p : Obj) (k : String) (hk : k ∉ p.map Prod.fst) :
    Obj.get (o.filter fun kv => !(decide (kv.1 ∈ p.map Prod.fst))) k = Obj.get o k := by
  induction o with
  | nil => rfl
  | cons kv rest ih =>
    obtain ⟨k', v⟩ := kv
    by_cases hmem : k' ∈ p.map Prod.fst
    · have hne : k' ≠ k := fun h => hk (h ▸ hmem)
      rw [List.filter_cons_of_neg (by simp [hmem])]
      rw [ih, Obj.get, if_neg hne]
    · rw [List.filter_cons_of_pos (by simp [hmem])]
      by_cases hke : k' = k
      · simp [Obj.get, hke]
      · simp only [Obj.get, if_neg hke]
        exact ih

theorem Obj.get_update (o p : Obj) (k : String) :
    Obj.get (Obj.update o p) k
      = if k ∈ p.map Prod.fst then Obj.get p k else Obj.get o k := by
  rw [Obj.update, Obj.get_append]
  by_cases hk : k ∈ p.map Prod.fst
  · rw [if_pos hk]
    have hnone : Obj.get (o.filter fun kv => !(decide (kv.1 ∈ p.map Prod.fst))) k = none := by
      cases hg : Obj.get (o.filter fun kv => !(decide (kv.1 ∈ p.map Prod.fst))) k with
      | none => rfl
      | some v =>
        have hmem := Obj.mem_of_get hg
        rw [List.mem_filter] at hmem
        simp only [Bool.not_eq_true', decide_eq_false_iff_not] at hmem
        exact absurd hk hmem.2
    rw [hnone]
    rfl
  · rw [if_neg hk, Obj.get_filter_not_mem o p k hk]
    cases hg : Obj.get o k with
    | none => simpa [hg, Option.isSome] using (Obj.get_eq_none_iff p k).mpr hk
    | some v => simp [Option.isSome]

/-! ### values_equal is reflexive -/

theorem values_equal_refl (v : Value) (sl : Bool) : values_equal v v sl = true := by
  unfold values_equal
  by_cases h : v = Value.null
  · subst h
    rw [if_pos ⟨rfl, rfl⟩]
  · rw [if_neg (fun hc => h hc.1), if_neg (fun hc => h hc.2)]
    cases sl with
    | false => cases v <;> simp
    | true =>
      cases v with
      | list xs =>
        show (if (allHashable xs && allHashable xs) = true then setEq xs xs
              else decide (Value.list xs = Value.list xs)) = true
        by_cases hh : (allHashable xs && allHashable xs) = true
        · rw [if_pos hh]
          simp [setEq]
        · rw [if_neg hh]
          simp
      | null => simp
      | bool b => simp
      | int n => simp
      | str s => simp
      | dict fs => simp

/-! ### C1: patch minimality and the fixed point of reconciliation -/

/-- C1: for every current and desired mapping and classification `c`,
`compute_patch current desired c` contains exactly the key/value pairs of
`desired` whose value is non-null and differs from current's (a missing
current value reads as null) under `values_equal` with the field's
set-like-ness; and re-diffing the merged mapping (`current` updated with the
patch) against the same `desired` yields the empty patch. -/
theorem compute_patch_minimal_and_fixed_point (current desired : Obj) (c : Overrides)
    (hnd : (desired.map Prod.fst).Nodup) :
    (∀ k v, Obj.get (compute_patch current desired c) k = some v ↔
      (Obj.get desired k = some v ∧ v ≠ Value.null ∧
        values_equal ((Obj.get current k).getD Value.null) v
          (decide (k ∈ c.set_like_lists)) = false))
    ∧ compute_patch (Obj.update current (compute_patch current desired c)) desired c = [] := by
  constructor
  · intro k v
    rw [compute_patch, Obj.get_filter _ _ _ hnd]
    cases hd : Obj.get desired k with
    | none => simp
    | some w =>
      show (if (!(decide (w = Value.null)) &&
          !(values_equal ((Obj.get current k).getD Value.null) w
            (decide (k ∈ c.set_like_lists)))) = true then some w else none) = some v ↔ _
      by_cases hw : (!(decide (w = Value.null)) &&
          !(values_equal ((Obj.get current k).getD Value.null) w
            (decide (k ∈ c.set_like_lists)))) = true
      · rw [if_pos hw]
        simp only [Bool.and_eq_true, Bool.not_eq_true', decide_eq_false_iff_not] at hw
        constructor
        · intro h
          cases h
          exact ⟨rfl, hw.1, hw.2⟩
        · rintro ⟨h1, -, -⟩
          exact h1
      · rw [if_neg hw]
        simp only [Bool.and_eq_true, Bool.not_eq_true', decide_eq_false_iff_not] at hw
        constructor
        · intro h
          exact Option.noConfusion h
        · rintro ⟨h1, h2, h3⟩
          cases h1
          exact absurd ⟨h2, h3⟩ hw
  · rw [compute_patch, List.filter_eq_nil_iff]
    rintro ⟨k, v⟩ hmem hc
    simp only [Bool.and_eq_true, Bool.not_eq_true', decide_eq_false_iff_not] at hc
    obtain ⟨hv, hne⟩ := hc
    have htrue : values_equal
        ((Obj.get (Obj.update current (compute_patch current desired c)) k).getD Value.null) v
        (decide (k ∈ c.set_like_lists)) = true := by
      rw [Obj.get_update]
      by_cases hcase : values_equal ((Obj.get current k).getD Value.null) v
          (decide (k ∈ c.set_like_lists)) = true
      · have hk : k ∉ (compute_patch current desired c).map Prod.fst := by
          intro hmemk
          obtain ⟨⟨k2, w⟩, hmem2, hk2⟩ := List.mem_map.mp hmemk
          cases hk2
          rw [compute_patch, List.mem_filter] at hmem2
          obtain ⟨hmemd, hpred⟩ := hmem2
          have hw : w = v := by
            have h1 := Obj.get_of_mem hnd hmemd
            have h2 := Obj.get_of_mem hnd hmem
            rw [h1] at h2
            injection h2
          subst hw
          simp only [Bool.and_eq_true, Bool.not_eq_true', decide_eq_false_iff_not] at hpred
          rw [hpred.2] at hcase
          exact Bool.noConfusion hcase
        rw [if_neg hk]
        exact hcase
      · have hve : values_equal ((Obj.get current k).getD Value.null) v
            (decide (k ∈ c.set_like_lists)) = false := by
          cases hvv : values_equal ((Obj.get current k).getD Value.null) v
              (decide (k ∈ c.set_like_lists)) with
          | false => rfl
          | true => exact absurd hvv hcase
        have hmemp : (k, v) ∈ compute_patch current desired c := by
          rw [compute_patch, List.mem_filter]
          refine ⟨hmem, ?_⟩
          simp [hv, hve]
        have hk : k ∈ (compute_patch current desired c).map Prod.fst :=
          List.mem_map.mpr ⟨(k, v), hmemp, rfl⟩
        have hndp : ((compute_patch current desired c).map Prod.fst).Nodup := by
          rw [compute_patch]
          exact List.Nodup.sublist (List.Sublist.map Prod.fst (List.filter_sublist desired)) hnd
        rw [if_pos hk, Obj.get_of_mem hndp hmemp]
        simp only [Option.getD_some]
        exact values_equal_refl v _
    rw [htrue] at hne
    exact Bool.noConfusion hne

/-- Witness for C1 at a concrete input: the fixed-point half evaluated on a
two-field drift. -/
theorem compute_patch_minimal_and_fixed_point_witness :
    compute_patch
        (Obj.update [("a", Value.int 1), ("keep", Value.str "x")]
          (compute_patch [("a", Value.int 1), ("keep", Value.str "x")]
            [("a", Value.int 2), ("b", Value.null), ("keep", Value.str "x")]
            (Overrides.mk [] [] [] [])))
        [("a", Value.int 2), ("b", Value.null), ("keep", Value.str "x")]
        (Overrides.mk [] [] [] []) = [] :=
  (compute_patch_minimal_and_fixed_point
    [("a", Value.int 1), ("keep", Value.str "x")]
    [("a", Value.int 2), ("b", Value.null), ("keep", Value.str "x")]
    (Overrides.mk [] [] [] []) (by decide)).2

/-! ### C7: the no-deletion guarantee -/

/-- C7: a key that is present in `current` but absent from `desired`, or
present in `desired` with a null value, never appears in the patch returned
by `compute_patch`. -/
theorem compute_patch_no_deletion (current desired : Obj) (c : Overrides) (k : String)
    (hnd : (desired.map Prod.fst).Nodup)
    (h : ((Obj.get current k).isSome ∧ Obj.get desired k = none)
      ∨ Obj.get desired k = some Value.null) :
    Obj.get (compute_patch current desired c) k = none := by
  rw [compute_patch, Obj.get_filter _ _ _ hnd]
  rcases h with ⟨-, hd⟩ | hd <;> rw [hd] <;> simp

/-- Witness for C7 at a concrete input: a key only in `current`, and a key
null in `desired`, both stay out of the patch. -/
theorem compute_patch_no_deletion_witness :
    Obj.get (compute_patch [("gone", Value.int 5)]
      [("b", Value.null)] (Overrides.mk [] [] [] [])) "gone" = none :=
  compute_patch_no_deletion [("gone", Value.int 5)] [("b", Value.null)]
    (Overrides.mk [] [] [] []) "gone" (by decide) (by decide)

/-! ### C6: false-boolean absence equivalence -/

/-- C6: `values_equal` treats an absent (null) current value as equal to a
desired boolean false, and only to false, whatever the set-like flag. -/
theorem values_equal_false_absence :
    values_equal Value.null (Value.bool false) false = true
    ∧ values_equal Value.null (Value.bool false) true = true
    ∧ values_equal Value.null (Value.bool true) false = false
    ∧ values_equal Value.null (Value.bool true) true = false := by
  refine ⟨rfl, rfl, ?_, ?_⟩ <;> decide

/-! ### C2: waiter terminal classification on concrete poll sequences -/

/-- C2: polled states PENDING, RUNNING, COMPLETED make `wait_for_task` return
after the third poll with the COMPLETED status mapping; RUNNING, FAILED make
it raise the task-failure error after the second poll; a never-terminal
sequence with timeout 1s and poll interval 1s raises the timeout error. -/
theorem wait_for_task_terminal_classification :
    wait_for_task
        (fun n => Except.ok (if n = 0 then [("state", Value.str "PENDING")]
          else if n = 1 then [("state", Value.str "RUNNING")]
          else [("state", Value.str "COMPLETED")])) 300 5
      = WaitResult.success 3 [("state", Value.str "COMPLETED")]
    ∧ wait_for_task
        (fun n => Except.ok (if n = 0 then [("state", Value.str "RUNNING")]
          else [("state", Value.str "FAILED")])) 300 5
      = WaitResult.taskFailed 2 (Value.str "FAILED") (Value.str "Unknown error")
    ∧ wait_for_task (fun _ => Except.ok [("state", Value.str "RUNNING")]) 1 1
      = WaitResult.timedOut 1 (some (Value.str "RUNNING")) :=
  ⟨rfl, rfl, rfl⟩

/-! ### C10: presence of a top-level task_id short-circuits extraction -/

/-- C10: in `extract_task_id` the mere presence of the top-level `task_id` key
short-circuits the nested and root shapes: `{"task_id": None, "async_task":
{"id": 9}}` yields null (synchronous), while without the top-level key the
same nested object yields 9. -/
theorem extract_task_id_task_id_short_circuit :
    extract_task_id [("task_id", Value.null), ("async_task", Value.dict [("id", Value.int 9)])]
      = Except.ok Value.null
    ∧ extract_task_id [("async_task", Value.dict [("id", Value.int 9)])]
      = Except.ok (Value.int 9) :=
  ⟨rfl, rfl⟩

/-! ### C3: endpoint fallback in _get_task -/

/-- Counterexample to C3: with the `vtasks` attribute missing and a usable
`async_tasks` endpoint holding a running task, `_get_task` does not fall back:
it fails with the configuration error instead of returning the task. -/
theorem get_task_vtasks_unavailable_cex :
    get_task (Client.mk none (some (Endpoint.returns
        (Value.list [Value.dict [("state", Value.str "RUNNING")]])))) 5
      = Except.error GetTaskError.noEndpoints
    ∧ get_task (Client.mk none (some (Endpoint.returns
        (Value.list [Value.dict [("state", Value.str "RUNNING")]])))) 5
      ≠ Except.ok (Value.dict [("state", Value.str "RUNNING")]) :=
  ⟨rfl, fun h => nomatch h⟩

/-- C3 amended: the fallback to `async_tasks` happens only when the `vtasks`
endpoint exists and returns an empty (falsy) result; a missing `vtasks`
attribute fails immediately with the configuration error without consulting
`async_tasks`, and a missing `async_tasks` after an empty `vtasks` result
fails with the same configuration error. -/
theorem get_task_fallback_semantics (c : Client) (id : Nat) :
    (c.vtasks = none → get_task c id = Except.error GetTaskError.noEndpoints)
    ∧ (∀ t t2, c.vtasks = some (Endpoint.returns t) → t.truthy = false →
        c.async_tasks = some (Endpoint.returns t2) → t2.truthy = true →
        get_task c id = Except.ok (firstIfList t2))
    ∧ (∀ t, c.vtasks = some (Endpoint.returns t) → t.truthy = false →
        c.async_tasks = none → get_task c id = Except.error GetTaskError.noEndpoints) := by
  obtain ⟨cv, ca⟩ := c
  refine ⟨?_, ?_, ?_⟩
  · rintro rfl
    rfl
  · rintro t t2 rfl h2 rfl h4
    simp only [get_task, h2, Bool.false_eq_true, if_false, h4, if_true]
  · rintro t rfl h2 rfl
    simp only [get_task, h2, Bool.false_eq_true, if_false]

/-- Witness for C3's amended theorem: empty `vtasks` result plus a usable
`async_tasks` endpoint produces the fallback task. -/
theorem get_task_fallback_semantics_witness :
    get_task (Client.mk (some (Endpoint.returns (Value.list [])))
        (some (Endpoint.returns (Value.list [Value.dict [("state", Value.str "RUNNING")]])))) 7
      = Except.ok (Value.dict [("state", Value.str "RUNNING")]) :=
  (get_task_fallback_semantics
      (Client.mk (some (Endpoint.returns (Value.list [])))
        (some (Endpoint.returns (Value.list [Value.dict [("state", Value.str "RUNNING")]])))) 7).2.1
    (Value.list []) (Value.list [Value.dict [("state", Value.str "RUNNING")]])
    rfl rfl rfl rfl

/-! ### C4: transient query errors during wait_for_task polling -/

/-- Counterexample to C4: a status query raising a transient (wrapped)
exception on the very first poll aborts `wait_for_task` immediately with that
error, instead of being swallowed and retried until the timeout budget is
exhausted. -/
theorem wait_for_task_error_first_poll_cex :
    wait_for_task (fun _ => Except.error (GetTaskError.failed "connection reset")) 300 5
      = WaitResult.getTaskError 1 (GetTaskError.failed "connection reset") :=
  rfl

theorem success_mem_terminal {v : Value} (h : v ∈ SUCCESS_STATES) : v ∈ TERMINAL_STATES := by
  simp only [SUCCESS_STATES, List.mem_cons, List.not_mem_nil, or_false] at h
  rcases h with rfl | rfl <;> simp [TERMINAL_STATES]

theorem waitLoop_ok (geto : Nat → Except GetTaskError Obj) (timeout poll fuel n : Nat)
    (last : Option Value) (task : Obj) (htime : ¬timeout ≤ n * poll)
    (hok : geto n = Except.ok task) :
    waitLoop geto timeout poll (fuel + 1) n last
      = if taskState task ∈ SUCCESS_STATES then WaitResult.success (n + 1) task
        else if taskState task ∈ TERMINAL_STATES then
          WaitResult.taskFailed (n + 1) (taskState task) (taskError task)
        else waitLoop geto timeout poll fuel (n + 1) (some (taskState task)) := by
  rw [waitLoop, if_neg htime, hok]

theorem waitLoop_err (geto : Nat → Except GetTaskError Obj) (timeout poll fuel n : Nat)
    (last : Option Value) (e : GetTaskError) (htime : ¬timeout ≤ n * poll)
    (he : geto n = Except.error e) :
    waitLoop geto timeout poll (fuel + 1) n last = WaitResult.getTaskError (n + 1) e := by
  rw [waitLoop, if_neg htime, he]

theorem waitLoop_error_propagates (geto : Nat → Except GetTaskError Obj) (t : Nat → Obj)
    (e : GetTaskError) (timeout poll : Nat) :
    ∀ (k n fuel : Nat) (last : Option Value), k < fuel → (n + k) * poll < timeout →
      (∀ i, i < k → geto (n + i) = Except.ok (t (n + i))) →
      (∀ i, i < k → taskState (t (n + i)) ∉ TERMINAL_STATES) →
      geto (n + k) = Except.error e →
      waitLoop geto timeout poll fuel n last = WaitResult.getTaskError (n + k + 1) e := by
  intro k
  induction k with
  | zero =>
    intro n fuel last hf ht hok hnt he
    obtain ⟨fuel, rfl⟩ : ∃ f, fuel = f + 1 := ⟨fuel - 1, by omega⟩
    rw [Nat.add_zero] at he ht
    rw [waitLoop_err geto timeout poll fuel n last e (by omega) he]
  | succ k ih =>
    intro n fuel last hf ht hok hnt he
    obtain ⟨fuel, rfl⟩ : ∃ f, fuel = f + 1 := ⟨fuel - 1, by omega⟩
    have hmul : n * poll ≤ (n + (k + 1)) * poll := Nat.mul_le_mul_right _ (by omega)
    have h0 := hok 0 (by omega)
    rw [Nat.add_zero] at h0
    have hnt0 := hnt 0 (by omega)
    rw [Nat.add_zero] at hnt0
    rw [waitLoop_ok geto timeout poll fuel n last (t n) (by omega) h0]
    rw [if_neg (fun hs => hnt0 (success_mem_terminal hs)), if_neg hnt0]
    rw [show n + (k + 1) + 1 = n + 1 + k + 1 from by omega]
    refine ih (n + 1) fuel (some (taskState (t n))) (by omega) ?_ ?_ ?_ ?_
    · rw [show n + 1 + k = n + (k + 1) from by omega]
      exact ht
    · intro i hi
      have h1 := hok (i + 1) (by omega)
      rwa [show n + (i + 1) = n + 1 + i from by omega] at h1
    · intro i hi
      have h1 := hnt (i + 1) (by omega)
      rwa [show n + (i + 1) = n + 1 + i from by omega] at h1
    · rwa [show n + (k + 1) = n + 1 + k from by omega] at he

/-- C4 amended: a poll whose status query raises a transient (wrapped)
exception aborts `wait_for_task` immediately: after any run of successful
polls observing non-terminal states, the first query error is propagated as
the result (wrapped by `_get_task`), with no further polling and no wait for
the timeout budget. -/
theorem wait_for_task_transient_error_aborts (geto : Nat → Except GetTaskError Obj)
    (t : Nat → Obj) (e : GetTaskError) (k timeout poll : Nat)
    (hpoll : 0 < poll) (htime : k * poll < timeout)
    (hok : ∀ i, i < k → geto i = Except.ok (t i))
    (hnt : ∀ i, i < k → taskState (t i) ∉ TERMINAL_STATES)
    (he : geto k = Except.error e) :
    wait_for_task geto timeout poll = WaitResult.getTaskError (k + 1) e := by
  have h1 : k * 1 ≤ k * poll := Nat.mul_le_mul_left k hpoll
  rw [Nat.mul_one] at h1
  have h := waitLoop_error_propagates geto t e timeout poll k 0 (timeout + 1) none
    (by omega) (by simpa using htime) (by simpa using hok) (by simpa using hnt)
    (by simpa using he)
  simpa using h

/-- Witness for C4's amended theorem: one successful non-terminal poll, then a
transient failure on the second poll, aborts with that error after two
queries. -/
theorem wait_for_task_transient_error_aborts_witness :
    wait_for_task
        (fun n => if n = 0 then Except.ok [("state", Value.str "RUNNING")]
          else Except.error (GetTaskError.failed "boom")) 300 5
      = WaitResult.getTaskError 2 (GetTaskError.failed "boom") :=
  wait_for_task_transient_error_aborts
    (fun n => if n = 0 then Except.ok [("state", Value.str "RUNNING")]
      else Except.error (GetTaskError.failed "boom"))
    (fun _ => [("state", Value.str "RUNNING")]) (GetTaskError.failed "boom") 1 300 5
    (by decide) (by decide)
    (fun i hi => by
      match i, hi with
      | 0, _ => rfl)
    (fun i hi => by
      match i, hi with
      | 0, _ => decide)
    rfl

/-! ### C8: error-state labels in wait_for_resource_state -/

/-- Counterexample to C8: with `target_state = "ERROR"` and a resource whose
observed state is the error label "ERROR", `wait_for_resource_state` returns
the resource after the first poll instead of raising: the target comparison
runs before the error-label check. -/
theorem wait_for_resource_state_target_error_cex :
    Value.str "ERROR" ∈ ERROR_LABELS
    ∧ wait_for_resource_state
        (fun _ => ResourcePoll.value (Value.dict [("state", Value.str "ERROR")]))
        (Value.str "ERROR") 300 5
      = ResWaitResult.reached 1 (Value.dict [("state", Value.str "ERROR")]) :=
  ⟨by decide, rfl⟩

/-- C8 amended: an observed state among the fixed error labels (ERROR, FAILED,
DELETED) is immediately fatal on that poll unless it equals the requested
`target_state`, in which case the call returns the resource instead. -/
theorem wait_for_resource_state_error_label_fatal_unless_target
    (kvs : Obj) (target : Value) (timeout poll : Nat)
    (htime : 0 < timeout) (hlab : resState kvs ∈ ERROR_LABELS) :
    wait_for_resource_state (fun _ => ResourcePoll.value (Value.dict kvs)) target timeout poll
      = if resState kvs = target then ResWaitResult.reached 1 (Value.dict kvs)
        else ResWaitResult.errorState 1 (resState kvs) (resError kvs) := by
  rw [wait_for_resource_state, resWaitLoop, if_neg (by omega)]
  show (if resState kvs = target then ResWaitResult.reached (0 + 1) (Value.dict kvs)
      else if resState kvs ∈ ERROR_LABELS then
        ResWaitResult.errorState (0 + 1) (resState kvs) (resError kvs)
      else resWaitLoop (fun _ => ResourcePoll.value (Value.dict kvs)) target timeout poll
        timeout (0 + 1)) = _
  by_cases ht : resState kvs = target
  · rw [if_pos ht, if_pos ht]
  · rw [if_neg ht, if_pos hlab, if_neg ht]

/-- Witness for C8's amended theorem: a FAILED resource polled while waiting
for ACTIVE raises the error-state failure after the first poll. -/
theorem wait_for_resource_state_error_label_fatal_unless_target_witness :
    wait_for_resource_state
        (fun _ => ResourcePoll.value (Value.dict [("state", Value.str "FAILED")]))
        (Value.str "ACTIVE") 300 5
      = ResWaitResult.errorState 1 (Value.str "FAILED") (Value.str "Unknown error") := by
  have h := wait_for_resource_state_error_label_fatal_unless_target
    [("state", Value.str "FAILED")] (Value.str "ACTIVE") 300 5 (by decide) (by decide)
  rw [if_neg (by decide)] at h
  exact h

/-! ### C9: the two task-id extraction implementations -/

/-- Counterexample to C9: on `{"async_task": {"id": 0}}` the waiter's
`extract_task_id` returns the falsy identifier 0, while
`BaseResource._extract_task_id` discards falsy identifiers and returns null. -/
theorem extract_task_id_implementations_differ_cex :
    extract_task_id [("async_task", Value.dict [("id", Value.int 0)])]
      = Except.ok (Value.int 0)
    ∧ BaseResource_extract_task_id [("async_task", Value.dict [("id", Value.int 0)])]
      = Except.ok Value.null
    ∧ (Except.ok (Value.int 0) : Except String Value) ≠ Except.ok Value.null :=
  ⟨rfl, rfl, fun h => by injection h with h2; exact Value.noConfusion h2⟩

/-- The agreement domain for the two extraction implementations: the
`async_task` field, when present, is a mapping whose identifier fields, when
present, are truthy. -/
def nestedTruthy (r : Obj) : Prop :=
  match Obj.get r "async_task" with
  | none => True
  | some (Value.dict o) =>
    (∀ v, Obj.get o "id" = some v → v.truthy = true) ∧
    (∀ v, Obj.get o "task_id" = some v → v.truthy = true)
  | some _ => False

/-- C9 amended: the module-level `extract_task_id` (waiter.py) and
`BaseResource._extract_task_id` (resource.py) agree on every dictionary
response whose `async_task` field, when present, is a mapping with truthy
identifier fields; when a nested identifier is falsy (0 or null) the two
implementations can differ, the waiter returning the falsy identifier and the
resource version falling through to the root-task check. -/
theorem extract_task_id_implementations_agree (r : Obj) (h : nestedTruthy r) :
    extract_task_id r = BaseResource_extract_task_id r := by
  unfold extract_task_id BaseResource_extract_task_id
  by_cases h1 : (Obj.get r "task_id").isSome
  · rw [if_pos h1, if_pos h1]
  · rw [if_neg h1, if_neg h1]
    unfold nestedTruthy at h
    cases hat : Obj.get r "async_task" with
    | none => rfl
    | some a =>
      rw [hat] at h
      cases a with
      | dict o =>
        obtain ⟨hid, htid⟩ : (∀ v, Obj.get o "id" = some v → v.truthy = true)
            ∧ (∀ v, Obj.get o "task_id" = some v → v.truthy = true) := h
        have hat2 : (if ((some (Value.dict o)).getD Value.null).truthy = true
            then (some (Value.dict o)).getD Value.null else Value.dict []) = Value.dict o := by
          cases o with
          | nil => rfl
          | cons kv o' => rfl
        rw [show (some (Value.dict o)).isSome = true from rfl, if_pos rfl, hat2]
        show (if (Obj.get o "id").isSome = true then Except.ok ((Obj.get o "id").getD Value.null)
            else if (Obj.get o "task_id").isSome = true then
              Except.ok ((Obj.get o "task_id").getD Value.null)
            else if (Obj.get r "id").isSome = true
                ∧ Obj.get r "type" = some (Value.str "async_task")
              then Except.ok ((Obj.get r "id").getD Value.null) else Except.ok Value.null)
          = if (pyOr ((Obj.get o "id").getD Value.null)
                ((Obj.get o "task_id").getD Value.null)).truthy = true
              then Except.ok (pyOr ((Obj.get o "id").getD Value.null)
                ((Obj.get o "task_id").getD Value.null))
            else if (Obj.get r "id").isSome = true
                ∧ Obj.get r "type" = some (Value.str "async_task")
              then Except.ok ((Obj.get r "id").getD Value.null) else Except.ok Value.null
        cases hid0 : Obj.get o "id" with
        | some v =>
          have hv := hid v hid0
          simp [pyOr, hv]
        | none =>
          cases htid0 : Obj.get o "task_id" with
          | some w =>
            have hw := htid w htid0
            simp [pyOr, show Value.null.truthy = false from rfl, hw]
          | none => simp [pyOr, show Value.null.truthy = false from rfl]
      | null => exact False.elim h
      | bool b => exact False.elim h
      | int n => exact False.elim h
      | str s => exact False.elim h
      | list items => exact False.elim h

/-- Witness for C9's amended theorem: a truthy nested identifier is extracted
identically by both implementations. -/
theorem extract_task_id_implementations_agree_witness :
    extract_task_id [("async_task", Value.dict [("id", Value.int 9)])]
      = BaseResource_extract_task_id [("async_task", Value.dict [("id", Value.int 9)])] :=
  extract_task_id_implementations_agree [("async_task", Value.dict [("id", Value.int 9)])]
    ⟨fun v hv => by
        cases hv
        decide,
      fun v hv => by cases hv⟩
